import Mathlib

/-!
Shallow embedding of the chat-room relay server (`chat_server.py`).

Connections (websockets) are modelled as natural-number identifiers.  The
JSON values fetched with `data.get(...)` are modelled as `Option String`:
`none` stands for a missing or non-string field (every non-string value
fails the `isinstance(..., str)` check in the source, and `none`/`""` are
falsy).  Python dictionaries become functions into `Option`, Python sets
become duplicate-free-by-construction lists, and the bounded
`deque(maxlen=...)` becomes a list together with capacity-respecting
append operations.  File contents are modelled as `List Char` (the logs
are written and read as UTF-8; for the ASCII payloads of the claims the
byte/char distinction is immaterial and `decode("utf-8", errors="ignore")`
is the identity).
-/

namespace Chat

/-- A connection handle (a websocket in the source). -/
abbrev Conn := Nat

/-- Python truthiness of an optional string: `None` and `""` are falsy.
Used for the `if not username`, `if not room` style checks. -/
def pyTruthy : Option String → Bool
  | none => false
  | some s => s ≠ ""

/-- A message record, as built in `_handle_publish`:
`{"type": "message", "room": room, "username": username, "message": message, "ts": timestamp}`.
The constant `"type": "message"` field is left implicit. -/
structure Rec where
  room : String
  username : String
  message : String
  ts : String
  deriving DecidableEq, Repr

/-- An outbound effect on a connection: the JSON envelopes sent by
`_send_ok` / `_send_error` / `_send_recent_history` / `_broadcast`, and
the `websocket.close(code, reason)` call. -/
inductive Envelope where
  | error (code message : String)
  | ok (event : String) (fields : List (String × String))
  | history (room : String) (messages : List Rec)
  | message (rec : Rec)
  | close (code : Nat) (reason : String)
  deriving DecidableEq, Repr

/-- The mutable state of `ChatServer`. -/
structure ServerState where
  /-- Source field `self.username_to_ws`. -/
  username_to_ws : String → Option Conn
  /-- Source field `self.ws_to_username`. -/
  ws_to_username : Conn → Option String
  /-- Source field `self.room_to_subscribers` (a `defaultdict(set)`); the list carries
  the set's elements. -/
  room_to_subscribers : String → List Conn
  /-- Source field `self.ws_to_rooms` (a `defaultdict(set)`). -/
  ws_to_rooms : Conn → List String
  /-- Source field `self.room_to_history` (a `defaultdict(deque(maxlen=HISTORY_SIZE))`). -/
  room_to_history : String → List Rec
  /-- the contents of the per-room log file written by
  `_append_to_room_log` (empty string = file absent). -/
  room_log : String → List Char

/-- The freshly constructed server: all maps empty. -/
def initState : ServerState where
  username_to_ws := fun _ => none
  ws_to_username := fun _ => none
  room_to_subscribers := fun _ => []
  ws_to_rooms := fun _ => []
  room_to_history := fun _ => []
  room_log := fun _ => []

/-- Pointwise update of a dictionary-as-function. -/
def upd {α β : Type} [DecidableEq α] (f : α → β) (k : α) (v : β) : α → β :=
  fun x => if x = k then v else f x

/-- Python `set.add`: a no-op when the element is already present. -/
def setAdd {α : Type} [DecidableEq α] (x : α) (l : List α) : List α :=
  if x ∈ l then l else l ++ [x]

/-- Python `deque.append` on a deque with `maxlen = cap`: when full, the oldest
(leftmost) element is evicted. -/
def dequeAppend {α : Type} (cap : Nat) (x : α) (l : List α) : List α :=
  if cap = 0 then [] else if cap ≤ l.length then l.drop 1 ++ [x] else l ++ [x]

/-- Python `deque.appendleft` on a deque with `maxlen = cap`: when full, the
newest (rightmost) element is evicted. -/
def dequeAppendLeft {α : Type} (cap : Nat) (x : α) (l : List α) : List α :=
  if cap = 0 then [] else if cap ≤ l.length then x :: l.dropLast else x :: l

/-- The last `n` elements of a list (`l[-n:]` for `n > 0`). -/
def takeLast {α : Type} (n : Nat) (l : List α) : List α :=
  l.drop (l.length - n)

/-- Python slicing `l[-n:]`: for `n = 0` this is `l[0:]`, the whole list. -/
def pySliceLast {α : Type} (n : Nat) (l : List α) : List α :=
  if n = 0 then l else takeLast n l

/-! ## The persistent log: encoding, tail read, parsing -/

/-- Source `_room_log_path`: the room name is sanitized to a filesystem token;
different rooms may collapse onto the same token (and hence file). -/
def sanitizeRoom (room : String) : String :=
  let kept := room.toList.filter fun c => c.isAlphanum ∨ c = '-' ∨ c = '_'
  if kept = [] then "room" else kept.asString

/-- The line `_append_to_room_log` writes:
`f"{record['ts']}|{record['username']}|{record['message']}\n"`. -/
def logLine (r : Rec) : List Char :=
  r.ts.toList ++ ['|'] ++ r.username.toList ++ ['|'] ++ r.message.toList ++ ['\n']

/-- Index of the last `'\n'` in the buffer (`buffer.rfind(b"\n")`),
`none` when absent. -/
def rfindNL : List Char → Option Nat
  | [] => none
  | c :: cs =>
    match rfindNL cs with
    | some i => some (i + 1)
    | none => if c = '\n' then some 0 else none

/-- The inner `while b"\n" in buffer` loop of `_read_last_lines_from_log`:
repeatedly split off the text after the last newline and, when non-empty,
`appendleft` it onto the `deque(maxlen=count)` of lines.  The buffer
shrinks at every step, so any `fuel ≥ buffer.length` computes the loop's
fixpoint; returns the final `(lines, buffer)`. -/
def extractLines (cap : Nat) : Nat → List Char → List (List Char) → List (List Char) × List Char
  | 0, buffer, lines => (lines, buffer)
  | fuel + 1, buffer, lines =>
    match rfindNL buffer with
    | none => (lines, buffer)
    | some idx =>
      let lineBytes := buffer.drop (idx + 1)
      let buffer' := buffer.take idx
      extractLines cap fuel buffer'
        (if lineBytes ≠ [] then dequeAppendLeft cap lineBytes lines else lines)

/-- The outer `while pointer > 0 and len(lines) < count` loop of
`_read_last_lines_from_log`: walk backward through the file in chunks of
at most 4096 bytes, prepending each chunk to the carry-over buffer and
harvesting complete lines; at the file start a leftover partial line is
`appendleft`-ed as well.  The pointer strictly decreases, so any
`fuel ≥ pointer` computes the loop's fixpoint. -/
def readLoop (cap : Nat) (file : List Char) :
    Nat → Nat → List Char → List (List Char) → List (List Char)
  | 0, _, _, lines => lines
  | fuel + 1, pointer, buffer, lines =>
    if 0 < pointer ∧ lines.length < cap then
      let readSize := min 4096 pointer
      let pointer' := pointer - readSize
      let chunk := (file.drop pointer').take readSize
      let res := extractLines cap (chunk ++ buffer).length (chunk ++ buffer) lines
      if pointer' = 0 ∧ res.2 ≠ [] then
        readLoop cap file fuel pointer' [] (dequeAppendLeft cap res.2 res.1)
      else
        readLoop cap file fuel pointer' res.2 res.1
    else lines

/-- The raw-line part of `_read_last_lines_from_log room count` on a file
with the given contents (an absent file is the empty contents: both
return no lines). -/
def readLastLines (file : List Char) (count : Nat) : List (List Char) :=
  readLoop count file (file.length + 1) file.length [] []

/-- Python `line.rstrip("\n")`. -/
def rstripNL (l : List Char) : List Char :=
  (l.reverse.dropWhile (· = '\n')).reverse

/-- Split at the first `'|'`, returning the parts before and after it. -/
def splitOncePipe : List Char → Option (List Char × List Char)
  | [] => none
  | c :: cs =>
    if c = '|' then some ([], cs)
    else
      match splitOncePipe cs with
      | some (a, b) => some (c :: a, b)
      | none => none

/-- Python `line.split("|", 2)`: at most two splits, so at most three parts. -/
def pySplit2Pipe (l : List Char) : List (List Char) :=
  match splitOncePipe l with
  | none => [l]
  | some (a, rest) =>
    match splitOncePipe rest with
    | none => [a, rest]
    | some (b, c) => [a, b, c]

/-- The per-line parsing step of `_read_last_lines_from_log`: strip the
trailing newline, skip empty lines, unpack `ts, username, msg =
line.split("|", 2)` (a `ValueError` — fewer than three parts — skips the
line). -/
def parseLine (room : String) (line : List Char) : Option Rec :=
  let line := rstripNL line
  if line = [] then none
  else
    match pySplit2Pipe line with
    | [ts, username, msg] => some ⟨room, username.asString, msg.asString, ts.asString⟩
    | _ => none

/-- Source `_read_last_lines_from_log room count` in full: backward chunked scan,
then parse each harvested line into a record. -/
def readLastRecords (room : String) (file : List Char) (count : Nat) : List Rec :=
  (readLastLines file count).filterMap (parseLine room)

/-- Modelled from the spec (the reference side of the tail-read
equivalence claim, not code of the repository): read the whole file
forward into its newline-delimited lines — a trailing newline ends the
last line rather than opening an empty one. -/
def fileLines (file : List Char) : List (List Char) :=
  let parts := file.splitOn '\n'
  if parts.getLast? = some [] then parts.dropLast else parts

/-- Modelled from the spec: take the last `k` lines of the forward read
and parse them with the same per-line parser. -/
def forwardLastRecords (room : String) (file : List Char) (k : Nat) : List Rec :=
  (takeLast k (fileLines file)).filterMap (parseLine room)

/-! ## Handlers

Each handler returns the new server state and the outbound effects, in
order.  `HISTORY_SIZE` and `HISTORY_ON_SUBSCRIBE` are environment-derived
constants in the source (defaults 100 and 5); they appear here as the
parameters `histCap` and `histOnSub`. -/

/-- Source `_cleanup websocket`: drop the reverse identity entry, drop the
forward entry only if it still points at this very connection, and
remove the connection from every room it subscribed to. -/
def cleanup (s : ServerState) (ws : Conn) : ServerState :=
  let username := s.ws_to_username ws
  let ws_to_username' := upd s.ws_to_username ws none
  let username_to_ws' :=
    match username with
    | some u =>
      if u ≠ "" ∧ s.username_to_ws u = some ws then upd s.username_to_ws u none
      else s.username_to_ws
    | none => s.username_to_ws
  let rooms := s.ws_to_rooms ws
  { s with
    ws_to_username := ws_to_username'
    username_to_ws := username_to_ws'
    ws_to_rooms := upd s.ws_to_rooms ws []
    room_to_subscribers :=
      rooms.foldl (fun f room => upd f room ((f room).erase ws)) s.room_to_subscribers }

/-- Source `_broadcast room record`: snapshot the subscriber set, then for each
subscriber either deliver the serialized record (`_safe_send` succeeds)
or, when the connection is already closed, catch `ConnectionClosed` and
run `_cleanup` on that one connection.  The concurrent `asyncio.gather`
is serialized in snapshot order. -/
def broadcast (s : ServerState) (closed : Conn → Bool) (room : String) (record : Rec) :
    ServerState × List (Conn × Envelope) :=
  let subs := s.room_to_subscribers room
  if subs = [] then (s, [])
  else
    subs.foldl
      (fun acc ws =>
        if closed ws then (cleanup acc.1 ws, acc.2)
        else (acc.1, acc.2 ++ [(ws, Envelope.message record)]))
      (s, [])

/-- Source `_send_recent_history websocket room count`: when the in-memory
deque for the room is empty, seed it from the last `histCap`
(= `HISTORY_SIZE`) records of the log file; then send the last `count`
records (`list(...)[-count:]`) if there are any. -/
def sendRecentHistory (histCap : Nat) (s : ServerState) (ws : Conn) (room : String)
    (count : Nat) : ServerState × List (Conn × Envelope) :=
  let hist := s.room_to_history room
  if hist.length = 0 then
    let seeded :=
      (readLastRecords room (s.room_log (sanitizeRoom room)) histCap).foldl
        (fun d rec => dequeAppend histCap rec d) hist
    let s1 := { s with room_to_history := upd s.room_to_history room seeded }
    let recent := pySliceLast count seeded
    (s1, if recent ≠ [] then [(ws, Envelope.history room recent)] else [])
  else
    let recent := pySliceLast count hist
    (s, if recent ≠ [] then [(ws, Envelope.history room recent)] else [])

/-- Source `_handle_login websocket data`: validate the username, reject a name
that is already a key of `username_to_ws` (error then forced close with
code 4000), otherwise link both identity maps. -/
def handleLogin (s : ServerState) (ws : Conn) (username? : Option String) :
    ServerState × List (Conn × Envelope) :=
  if ¬ pyTruthy username? then
    (s, [(ws, Envelope.error "invalid_username" "'username' must be a non-empty string")])
  else
    let username := username?.getD ""
    if (s.username_to_ws username).isSome then
      (s, [(ws, Envelope.error "username_taken" "Username already in use"),
           (ws, Envelope.close 4000 "username_taken")])
    else
      ({ s with
          username_to_ws := upd s.username_to_ws username (some ws)
          ws_to_username := upd s.ws_to_username ws (some username) },
       [(ws, Envelope.ok "login_ok" [("username", username)])])

/-- Source `_handle_subscribe websocket data`: validate the room (no login
check), add the connection to the room's subscriber set and the room to
the connection's room set, confirm, then send recent history. -/
def handleSubscribe (histCap histOnSub : Nat) (s : ServerState) (ws : Conn)
    (room? : Option String) : ServerState × List (Conn × Envelope) :=
  if ¬ pyTruthy room? then
    (s, [(ws, Envelope.error "invalid_room" "'room' must be a non-empty string")])
  else
    let room := room?.getD ""
    let s1 := { s with
      room_to_subscribers := upd s.room_to_subscribers room (setAdd ws (s.room_to_subscribers room))
      ws_to_rooms := upd s.ws_to_rooms ws (setAdd room (s.ws_to_rooms ws)) }
    let res := sendRecentHistory histCap s1 ws room histOnSub
    (res.1, (ws, Envelope.ok "subscribed" [("room", room)]) :: res.2)

/-- Result of `_handle_publish`: the state, the outbound effects, and
whether an exception escaped the handler (the log write is not guarded
by any `try`, so an `OSError` from `_append_to_room_log` propagates, with
the in-memory history already mutated and the broadcast never run). -/
structure PublishResult where
  state : ServerState
  outputs : List (Conn × Envelope)
  raised : Bool

/-- Source `_handle_publish websocket data`: validate room and message, require
an identity, stamp the record with the current time, append it to the
in-memory deque and to the room log (`logOk` says whether the file write
succeeds), then broadcast. -/
def handlePublish (histCap : Nat) (s : ServerState) (ws : Conn)
    (room? message? : Option String) (now : String) (logOk : Bool) (closed : Conn → Bool) :
    PublishResult :=
  if ¬ pyTruthy room? then
    ⟨s, [(ws, Envelope.error "invalid_room" "'room' must be a non-empty string")], false⟩
  else if ¬ pyTruthy message? then
    ⟨s, [(ws, Envelope.error "invalid_message" "'message' must be a non-empty string")], false⟩
  else
    let room := room?.getD ""
    let message := message?.getD ""
    if ¬ pyTruthy (s.ws_to_username ws) then
      ⟨s, [(ws, Envelope.error "not_logged_in" "Login required before publishing")], false⟩
    else
      let username := (s.ws_to_username ws).getD ""
      let record : Rec := ⟨room, username, message, now⟩
      let s1 := { s with
        room_to_history :=
          upd s.room_to_history room (dequeAppend histCap record (s.room_to_history room)) }
      if ¬ logOk then ⟨s1, [], true⟩
      else
        let s2 := { s1 with
          room_log :=
            upd s1.room_log (sanitizeRoom room) (s1.room_log (sanitizeRoom room) ++ logLine record) }
        let res := broadcast s2 closed room record
        ⟨res.1, res.2, false⟩

/-- Source `_handle_logout websocket`: confirm, clean up, close normally. -/
def handleLogout (s : ServerState) (ws : Conn) : ServerState × List (Conn × Envelope) :=
  (cleanup s ws,
   [(ws, Envelope.ok "logout_ok" []), (ws, Envelope.close 1000 "logout")])

/-- The server states reachable from a fresh `ChatServer` by any
sequence of handled frames and disconnects (malformed frames and unknown
actions do not touch the state). -/
inductive Reachable : ServerState → Prop where
  | init : Reachable initState
  | login {s} (ws : Conn) (u? : Option String) :
      Reachable s → Reachable (handleLogin s ws u?).1
  | subscribe {s} (histCap histOnSub : Nat) (ws : Conn) (r? : Option String) :
      Reachable s → Reachable (handleSubscribe histCap histOnSub s ws r?).1
  | publish {s} (histCap : Nat) (ws : Conn) (r? m? : Option String) (now : String)
      (logOk : Bool) (closed : Conn → Bool) :
      Reachable s → Reachable (handlePublish histCap s ws r? m? now logOk closed).state
  | logout {s} (ws : Conn) : Reachable s → Reachable (handleLogout s ws).1
  | disconnect {s} (ws : Conn) : Reachable s → Reachable (cleanup s ws)

/-- The per-subscriber step of the serialized `asyncio.gather` in `_broadcast`. -/
def bcastStep (closed : Conn → Bool) (rec : Rec) :
    ServerState × List (Conn × Envelope) → Conn → ServerState × List (Conn × Envelope) :=
  fun acc ws =>
    if closed ws then (cleanup acc.1 ws, acc.2)
    else (acc.1, acc.2 ++ [(ws, Envelope.message rec)])

/-- The part of the spec's 1:1 identity invariant that the code actually
maintains: any connection's recorded name maps back to that connection. -/
def IdentityInv (s : ServerState) : Prop :=
  ∀ (c : Conn) (u : String), s.ws_to_username c = some u → s.username_to_ws u = some c

/-! ## Lemmas and claim theorems -/

theorem upd_self {α β : Type} [DecidableEq α] (f : α → β) (k : α) (v : β) :
    upd f k v k = v := by simp [upd]

theorem upd_other {α β : Type} [DecidableEq α] (f : α → β) (k : α) (v : β) {x : α}
    (h : x ≠ k) : upd f k v x = f x := by simp [upd, h]

theorem mem_setAdd_self {α : Type} [DecidableEq α] (x : α) (l : List α) :
    x ∈ setAdd x l := by
  by_cases h : x ∈ l <;> simp [setAdd, h]

theorem cleanup_ws_to_username_self (s : ServerState) (ws : Conn) :
    (cleanup s ws).ws_to_username ws = none := by
  simp [cleanup, upd]

theorem cleanup_ws_to_rooms_self (s : ServerState) (ws : Conn) :
    (cleanup s ws).ws_to_rooms ws = [] := by
  simp [cleanup, upd]

theorem cleanup_ws_to_username_other (s : ServerState) (ws : Conn) {c : Conn} (h : c ≠ ws) :
    (cleanup s ws).ws_to_username c = s.ws_to_username c := by
  simp [cleanup, upd, h]

theorem cleanup_ws_to_rooms_other (s : ServerState) (ws : Conn) {c : Conn} (h : c ≠ ws) :
    (cleanup s ws).ws_to_rooms c = s.ws_to_rooms c := by
  simp [cleanup, upd, h]

theorem broadcast_eq_foldl (s : ServerState) (closed : Conn → Bool) (room : String) (rec : Rec) :
    broadcast s closed room rec =
      if s.room_to_subscribers room = [] then (s, [])
      else (s.room_to_subscribers room).foldl (bcastStep closed rec) (s, []) := by
  rfl

theorem foldl_bcastStep_outputs (closed : Conn → Bool) (rec : Rec) :
    ∀ (subs : List Conn) (s : ServerState) (out : List (Conn × Envelope)),
      (subs.foldl (bcastStep closed rec) (s, out)).2 =
        out ++ (subs.filter (fun ws => !closed ws)).map (fun ws => (ws, Envelope.message rec))
  | [], s, out => by simp
  | w :: subs, s, out => by
    by_cases h : closed w
    · simp [bcastStep, h, foldl_bcastStep_outputs closed rec subs]
    · simp [bcastStep, h, foldl_bcastStep_outputs closed rec subs]

theorem broadcast_outputs (s : ServerState) (closed : Conn → Bool) (room : String) (rec : Rec) :
    (broadcast s closed room rec).2 =
      ((s.room_to_subscribers room).filter (fun ws => !closed ws)).map
        (fun ws => (ws, Envelope.message rec)) := by
  rw [broadcast_eq_foldl]
  by_cases h : s.room_to_subscribers room = []
  · simp [h]
  · simp [h, foldl_bcastStep_outputs]

theorem foldl_bcastStep_state (closed : Conn → Bool) (rec : Rec) :
    ∀ (subs : List Conn) (s : ServerState) (out : List (Conn × Envelope)),
      (subs.foldl (bcastStep closed rec) (s, out)).1 =
        subs.foldl (fun t ws => if closed ws then cleanup t ws else t) s
  | [], s, out => by simp
  | w :: subs, s, out => by
    by_cases h : closed w
    · simp [bcastStep, h, foldl_bcastStep_state closed rec subs]
    · simp [bcastStep, h, foldl_bcastStep_state closed rec subs]

theorem broadcast_state (s : ServerState) (closed : Conn → Bool) (room : String) (rec : Rec) :
    (broadcast s closed room rec).1 =
      (s.room_to_subscribers room).foldl (fun t ws => if closed ws then cleanup t ws else t) s := by
  rw [broadcast_eq_foldl]
  by_cases h : s.room_to_subscribers room = []
  · simp [h]
  · simp [h, foldl_bcastStep_state]

theorem foldl_cleanup_preserves_healthy (closed : Conn → Bool) {S1 : Conn}
    (hc : closed S1 = false) :
    ∀ (subs : List Conn) (s : ServerState),
      (subs.foldl (fun t ws => if closed ws then cleanup t ws else t) s).ws_to_username S1 =
        s.ws_to_username S1 ∧
      (subs.foldl (fun t ws => if closed ws then cleanup t ws else t) s).ws_to_rooms S1 =
        s.ws_to_rooms S1
  | [], s => ⟨rfl, rfl⟩
  | w :: subs, s => by
    have ih := foldl_cleanup_preserves_healthy closed hc subs
    by_cases h : closed w
    · have hne : S1 ≠ w := fun he => by rw [he] at hc; rw [hc] at h; exact Bool.noConfusion h
      simp only [List.foldl_cons, h, if_pos]
      rw [(ih (cleanup s w)).1, (ih (cleanup s w)).2,
        cleanup_ws_to_username_other s w hne, cleanup_ws_to_rooms_other s w hne]
      exact ⟨rfl, rfl⟩
    · simp only [List.foldl_cons, h, if_neg, ite_false]
      exact ih s

theorem foldl_cleanup_keeps_cleaned (closed : Conn → Bool) (S2 : Conn) :
    ∀ (subs : List Conn) (s : ServerState),
      s.ws_to_username S2 = none → s.ws_to_rooms S2 = [] →
      (subs.foldl (fun t ws => if closed ws then cleanup t ws else t) s).ws_to_username S2 = none ∧
      (subs.foldl (fun t ws => if closed ws then cleanup t ws else t) s).ws_to_rooms S2 = []
  | [], s, h1, h2 => ⟨h1, h2⟩
  | w :: subs, s, h1, h2 => by
    by_cases h : closed w
    · simp only [List.foldl_cons, h, if_pos]
      refine foldl_cleanup_keeps_cleaned closed S2 subs (cleanup s w) ?_ ?_
      · by_cases he : S2 = w
        · subst he; exact cleanup_ws_to_username_self s S2
        · rw [cleanup_ws_to_username_other s w he]; exact h1
      · by_cases he : S2 = w
        · subst he; exact cleanup_ws_to_rooms_self s S2
        · rw [cleanup_ws_to_rooms_other s w he]; exact h2
    · simp only [List.foldl_cons, h, ite_false]
      exact foldl_cleanup_keeps_cleaned closed S2 subs s h1 h2

theorem foldl_cleanup_cleans_mem (closed : Conn → Bool) {S2 : Conn} (hc : closed S2 = true) :
    ∀ (subs : List Conn) (s : ServerState), S2 ∈ subs →
      (subs.foldl (fun t ws => if closed ws then cleanup t ws else t) s).ws_to_username S2 = none ∧
      (subs.foldl (fun t ws => if closed ws then cleanup t ws else t) s).ws_to_rooms S2 = []
  | [], s, hm => absurd hm (List.not_mem_nil S2)
  | w :: subs, s, hm => by
    by_cases he : S2 = w
    · subst he
      simp only [List.foldl_cons, hc, if_pos]
      exact foldl_cleanup_keeps_cleaned closed S2 subs (cleanup s S2)
        (cleanup_ws_to_username_self s S2) (cleanup_ws_to_rooms_self s S2)
    · have hm' : S2 ∈ subs := by
        rcases List.mem_cons.1 hm with h | h
        · exact absurd h he
        · exact h
      by_cases h : closed w
      · simp only [List.foldl_cons, h, if_pos]
        exact foldl_cleanup_cleans_mem closed hc subs (cleanup s w) hm'
      · simp only [List.foldl_cons, h, ite_false]
        exact foldl_cleanup_cleans_mem closed hc subs s hm'

/-- Claim C5: broadcasting to a subscriber set containing a healthy
connection S1 and an already-closed connection S2 delivers the record to
S1, cleans up exactly the closed subscribers — S2 loses its identity
binding and room subscriptions while S1's are untouched — and emits only
message envelopes, so no error reaches the publisher. -/
theorem c5_broadcast_partial_failure_isolated (s : ServerState) (closed : Conn → Bool) (room : String) (rec : Rec)
    (S1 S2 : Conn)
    (h1 : S1 ∈ s.room_to_subscribers room) (h2 : S2 ∈ s.room_to_subscribers room)
    (hc1 : closed S1 = false) (hc2 : closed S2 = true) :
    (S1, Envelope.message rec) ∈ (broadcast s closed room rec).2 ∧
    (broadcast s closed room rec).1.ws_to_username S2 = none ∧
    (broadcast s closed room rec).1.ws_to_rooms S2 = [] ∧
    (broadcast s closed room rec).1.ws_to_username S1 = s.ws_to_username S1 ∧
    (broadcast s closed room rec).1.ws_to_rooms S1 = s.ws_to_rooms S1 ∧
    ∀ p ∈ (broadcast s closed room rec).2, p.2 = Envelope.message rec := by
  refine ⟨?_, ?_, ?_, ?_, ?_, ?_⟩
  · rw [broadcast_outputs]
    exact List.mem_map.2 ⟨S1, List.mem_filter.2 ⟨h1, by simp [hc1]⟩, rfl⟩
  · rw [broadcast_state]
    exact (foldl_cleanup_cleans_mem closed hc2 _ s h2).1
  · rw [broadcast_state]
    exact (foldl_cleanup_cleans_mem closed hc2 _ s h2).2
  · rw [broadcast_state]
    exact (foldl_cleanup_preserves_healthy closed hc1 _ s).1
  · rw [broadcast_state]
    exact (foldl_cleanup_preserves_healthy closed hc1 _ s).2
  · intro p hp
    rw [broadcast_outputs] at hp
    rcases List.mem_map.1 hp with ⟨w, _, rfl⟩
    rfl

theorem broadcast_delivers {s : ServerState} {closed : Conn → Bool} {room : String}
    {rec : Rec} {ws : Conn}
    (hm : ws ∈ s.room_to_subscribers room) (hc : closed ws = false) :
    (ws, Envelope.message rec) ∈ (broadcast s closed room rec).2 := by
  rw [broadcast_outputs]
  exact List.mem_map.2 ⟨ws, List.mem_filter.2 ⟨hm, by simp [hc]⟩, rfl⟩

theorem sendRecentHistory_subscribers (cap : Nat) (s : ServerState) (ws : Conn)
    (room : String) (count : Nat) :
    (sendRecentHistory cap s ws room count).1.room_to_subscribers = s.room_to_subscribers := by
  by_cases h : (s.room_to_history room).length = 0 <;> simp [sendRecentHistory, h]

theorem sendRecentHistory_ws_to_rooms (cap : Nat) (s : ServerState) (ws : Conn)
    (room : String) (count : Nat) :
    (sendRecentHistory cap s ws room count).1.ws_to_rooms = s.ws_to_rooms := by
  by_cases h : (s.room_to_history room).length = 0 <;> simp [sendRecentHistory, h]

theorem sendRecentHistory_outputs_target (cap : Nat) (s : ServerState) (ws : Conn)
    (room : String) (count : Nat) :
    ∀ p ∈ (sendRecentHistory cap s ws room count).2, p.1 = ws := by
  intro p hp
  by_cases h : (s.room_to_history room).length = 0 <;>
    simp only [sendRecentHistory, h, if_pos, ite_false, if_neg] at hp <;>
    split at hp <;> simp_all

/-- Claim C10: subscribe does not require login — an anonymous connection
subscribing with a non-empty room is added to the room's subscriber set
and its own room set, receives the `subscribed` ok envelope first (and
every output of the call goes to it alone), and subsequently receives
broadcasts to that room. -/
theorem c10_subscribe_without_login_succeeds (cap hsub : Nat) (s : ServerState) (ws : Conn) (r : String)
    (_hanon : s.ws_to_username ws = none) (hr : r ≠ "") :
    ws ∈ (handleSubscribe cap hsub s ws (some r)).1.room_to_subscribers r ∧
    r ∈ (handleSubscribe cap hsub s ws (some r)).1.ws_to_rooms ws ∧
    (handleSubscribe cap hsub s ws (some r)).2.head? =
      some (ws, Envelope.ok "subscribed" [("room", r)]) ∧
    (∀ p ∈ (handleSubscribe cap hsub s ws (some r)).2, p.1 = ws) ∧
    ∀ (rec : Rec) (closed : Conn → Bool), closed ws = false →
      (ws, Envelope.message rec) ∈
        (broadcast (handleSubscribe cap hsub s ws (some r)).1 closed r rec).2 := by
  have hmem : ws ∈ (handleSubscribe cap hsub s ws (some r)).1.room_to_subscribers r := by
    simp only [handleSubscribe, pyTruthy, hr]
    rw [if_neg (by simp [hr])]
    rw [sendRecentHistory_subscribers]
    simp only [Option.getD_some, upd_self]
    exact mem_setAdd_self ws _
  refine ⟨hmem, ?_, ?_, ?_, ?_⟩
  · simp only [handleSubscribe, pyTruthy, hr]
    rw [if_neg (by simp [hr])]
    rw [sendRecentHistory_ws_to_rooms]
    simp only [Option.getD_some, upd_self]
    exact mem_setAdd_self r _
  · simp only [handleSubscribe, pyTruthy, hr]
    rw [if_neg (by simp [hr])]
    simp
  · intro p hp
    simp only [handleSubscribe, pyTruthy, hr] at hp
    rw [if_neg (by simp [hr])] at hp
    rcases List.mem_cons.1 hp with h | h
    · rw [h]
    · exact sendRecentHistory_outputs_target cap _ ws _ hsub p h
  · intro rec closed hc
    exact broadcast_delivers hmem hc

theorem identityInv_init : IdentityInv initState := by
  intro c u h
  exact Option.noConfusion h

theorem identityInv_cleanup {s : ServerState} (hs : IdentityInv s) (ws : Conn) :
    IdentityInv (cleanup s ws) := by
  intro c u h
  have hc : c ≠ ws := by
    intro he; subst he
    rw [cleanup_ws_to_username_self] at h
    exact Option.noConfusion h
  rw [cleanup_ws_to_username_other s ws hc] at h
  have hb := hs c u h
  show (match s.ws_to_username ws with
    | some u0 =>
      if u0 ≠ "" ∧ s.username_to_ws u0 = some ws then upd s.username_to_ws u0 none
      else s.username_to_ws
    | none => s.username_to_ws) u = some c
  cases hws : s.ws_to_username ws with
  | none => exact hb
  | some u0 =>
    dsimp only
    by_cases hcond : u0 ≠ "" ∧ s.username_to_ws u0 = some ws
    · rw [if_pos hcond]
      have hne : u ≠ u0 := by
        intro he; subst he
        rw [hb] at hcond
        exact hc (Option.some_injective _ hcond.2)
      rw [upd_other _ _ _ hne]
      exact hb
    · rw [if_neg hcond]
      exact hb

theorem handleLogin_invalid {u? : Option String} (h : pyTruthy u? = false)
    (s : ServerState) (ws : Conn) :
    handleLogin s ws u? =
      (s, [(ws, Envelope.error "invalid_username" "'username' must be a non-empty string")]) := by
  simp [handleLogin, h]

theorem handleLogin_taken {s : ServerState} {u? : Option String}
    (h1 : pyTruthy u? = true) (h2 : (s.username_to_ws (u?.getD "")).isSome = true)
    (ws : Conn) :
    handleLogin s ws u? =
      (s, [(ws, Envelope.error "username_taken" "Username already in use"),
           (ws, Envelope.close 4000 "username_taken")]) := by
  simp [handleLogin, h1, h2]

theorem handleLogin_success {s : ServerState} {u? : Option String}
    (h1 : pyTruthy u? = true) (h2 : (s.username_to_ws (u?.getD "")).isSome = false)
    (ws : Conn) :
    handleLogin s ws u? =
      ({ s with
          username_to_ws := upd s.username_to_ws (u?.getD "") (some ws)
          ws_to_username := upd s.ws_to_username ws (some (u?.getD "")) },
       [(ws, Envelope.ok "login_ok" [("username", u?.getD "")])]) := by
  simp [handleLogin, h1, h2]

theorem identityInv_login {s : ServerState} (hs : IdentityInv s) (ws : Conn)
    (u? : Option String) : IdentityInv (handleLogin s ws u?).1 := by
  by_cases hv : pyTruthy u? = true
  · by_cases ht : (s.username_to_ws (u?.getD "")).isSome = true
    · rw [handleLogin_taken hv ht ws]
      exact hs
    · rw [handleLogin_success hv (Bool.not_eq_true _ ▸ ht) ws]
      intro c u h
      dsimp only at h ⊢
      by_cases hc : c = ws
      · subst hc
        rw [upd_self] at h
        cases h
        exact upd_self _ _ _
      · rw [upd_other _ _ _ hc] at h
        have hb := hs c u h
        have hne : u ≠ u?.getD "" := by
          intro he
          rw [← he, hb] at ht
          exact ht rfl
        rw [upd_other _ _ _ hne]
        exact hb
  · rw [handleLogin_invalid (Bool.not_eq_true _ ▸ hv) s ws]
    exact hs

theorem handleSubscribe_identity (cap hsub : Nat) (s : ServerState) (ws : Conn)
    (r? : Option String) :
    (handleSubscribe cap hsub s ws r?).1.ws_to_username = s.ws_to_username ∧
    (handleSubscribe cap hsub s ws r?).1.username_to_ws = s.username_to_ws := by
  by_cases hv : pyTruthy r? = true
  · simp only [handleSubscribe, hv, not_true, ite_false]
    constructor
    · by_cases h : (s.room_to_history (r?.getD "")).length = 0 <;>
        simp [sendRecentHistory, h]
    · by_cases h : (s.room_to_history (r?.getD "")).length = 0 <;>
        simp [sendRecentHistory, h]
  · simp only [handleSubscribe, hv]
    simp

theorem identityInv_of_fields {s t : ServerState}
    (h1 : t.ws_to_username = s.ws_to_username) (h2 : t.username_to_ws = s.username_to_ws)
    (hs : IdentityInv s) : IdentityInv t := by
  intro c u h
  rw [h2]
  exact hs c u (h1 ▸ h)

theorem identityInv_foldl_cleanup {s : ServerState} (hs : IdentityInv s)
    (closed : Conn → Bool) (subs : List Conn) :
    IdentityInv (subs.foldl (fun t ws => if closed ws then cleanup t ws else t) s) := by
  induction subs generalizing s with
  | nil => exact hs
  | cons w subs ih =>
    simp only [List.foldl_cons]
    by_cases h : closed w
    · rw [if_pos h]
      exact ih (identityInv_cleanup hs w)
    · rw [if_neg h]
      exact ih hs

theorem identityInv_publish {s : ServerState} (hs : IdentityInv s) (cap : Nat) (ws : Conn)
    (r? m? : Option String) (now : String) (logOk : Bool) (closed : Conn → Bool) :
    IdentityInv (handlePublish cap s ws r? m? now logOk closed).state := by
  by_cases hr : pyTruthy r? = true
  · by_cases hm : pyTruthy m? = true
    · by_cases hu : pyTruthy (s.ws_to_username ws) = true
      · simp only [handlePublish, hr, hm, hu, not_true, ite_false]
        by_cases hlog : logOk
        · simp only [hlog, not_true, ite_false]
          rw [broadcast_state]
          refine identityInv_foldl_cleanup ?_ closed _
          intro c u h
          exact hs c u h
        · simp only [hlog, not_false_iff, ite_true]
          intro c u h
          exact hs c u h
      · simp only [handlePublish, hr, hm, hu, not_true, ite_false, not_false_iff, ite_true]
        exact hs
    · simp only [handlePublish, hr, hm, not_true, ite_false, not_false_iff, ite_true]
      exact hs
  · simp only [handlePublish, hr, not_false_iff, ite_true]
    exact hs

/-- Reachable states satisfy the connection-to-name half of the identity
invariant. -/
theorem identityInv_reachable {s : ServerState} (h : Reachable s) : IdentityInv s := by
  induction h with
  | init => exact identityInv_init
  | login ws u? _ ih => exact identityInv_login ih ws u?
  | subscribe cap hsub ws r? _ ih =>
    exact identityInv_of_fields (handleSubscribe_identity cap hsub _ ws r?).1
      (handleSubscribe_identity cap hsub _ ws r?).2 ih
  | publish cap ws r? m? now logOk closed _ ih =>
    exact identityInv_publish ih cap ws r? m? now logOk closed
  | logout ws _ ih => exact identityInv_cleanup ih ws
  | disconnect ws _ ih => exact identityInv_cleanup ih ws

/-- Claim C2 (amended): in every reachable server state the
connection-to-name map binds each connection to at most one username and
is mirrored by the name-to-connection map — any bound connection's name
maps back to it — hence two distinct connections never share a name.  The
original full 1:1 claim fails: a re-login on an already-identified
connection leaves the superseded name as a stale forward binding. -/
theorem c2_identity_binding_amended (s : ServerState) (h : Reachable s) :
    (∀ (c : Conn) (u : String), s.ws_to_username c = some u → s.username_to_ws u = some c) ∧
    (∀ (c c' : Conn) (u : String),
      s.ws_to_username c = some u → s.ws_to_username c' = some u → c = c') := by
  have hi := identityInv_reachable h
  refine ⟨hi, fun c c' u h1 h2 => ?_⟩
  have e1 := hi c u h1
  have e2 := hi c' u h2
  rw [e1] at e2
  exact Option.some_injective _ e2

theorem c2_identity_binding_amended_witness :
    Reachable (handleLogin initState 1 (some "a")).1 ∧
    (handleLogin initState 1 (some "a")).1.username_to_ws "a" = some 1 :=
  ⟨Reachable.login 1 (some "a") Reachable.init,
   (c2_identity_binding_amended _ (Reachable.login 1 (some "a") Reachable.init)).1 1 "a" (by decide)⟩

/-- Claim C2, refuted as stated: two logins on the same connection under
different names leave both names mapped to that one connection, and after
a disconnect the stale name still maps to the closed connection. -/
theorem c2_two_names_one_connection :
    Reachable (handleLogin (handleLogin initState 1 (some "a")).1 1 (some "b")).1 ∧
    (handleLogin (handleLogin initState 1 (some "a")).1 1 (some "b")).1.username_to_ws "a" =
      some 1 ∧
    (handleLogin (handleLogin initState 1 (some "a")).1 1 (some "b")).1.username_to_ws "b" =
      some 1 ∧
    "a" ≠ "b" ∧
    Reachable (cleanup (handleLogin (handleLogin initState 1 (some "a")).1 1 (some "b")).1 1) ∧
    (cleanup (handleLogin (handleLogin initState 1 (some "a")).1 1 (some "b")).1 1).username_to_ws
      "a" = some 1 ∧
    (cleanup (handleLogin (handleLogin initState 1 (some "a")).1 1 (some "b")).1 1).ws_to_username
      1 = none :=
  ⟨Reachable.login 1 (some "b") (Reachable.login 1 (some "a") Reachable.init),
   by decide, by decide, by decide,
   Reachable.disconnect 1 (Reachable.login 1 (some "b") (Reachable.login 1 (some "a") Reachable.init)),
   by decide, by decide⟩

/-- Claim C3 (amended): login with a non-empty name fails with
`username_taken` (error envelope followed by a close with code 4000) iff
the name is bound to *any* connection — including the requesting
connection itself — and on that failure both identity maps are left
exactly as they were. -/
theorem c3_username_taken_iff_bound (s : ServerState) (ws : Conn) (u : String) (hu : u ≠ "") :
    ((handleLogin s ws (some u)).2 =
      [(ws, Envelope.error "username_taken" "Username already in use"),
       (ws, Envelope.close 4000 "username_taken")] ↔ (s.username_to_ws u).isSome = true) ∧
    ((s.username_to_ws u).isSome = true →
      (handleLogin s ws (some u)).1 = s) := by
  have hv : pyTruthy (some u) = true := by simp [pyTruthy, hu]
  by_cases ht : (s.username_to_ws u).isSome = true
  · have ht' : (s.username_to_ws ((some u).getD "")).isSome = true := ht
    rw [handleLogin_taken hv ht' ws]
    exact ⟨Iff.intro (fun _ => ht) (fun _ => rfl), fun _ => rfl⟩
  · have ht' : (s.username_to_ws ((some u).getD "")).isSome = false := Bool.not_eq_true _ ▸ ht
    rw [handleLogin_success hv ht' ws]
    constructor
    · constructor
      · intro he
        exact absurd (List.head_eq_of_cons_eq he) (by simp)
      · intro he
        exact absurd he ht
    · intro he
      exact absurd he ht

/-- Claim C4 (amended): a failure of the on-disk log append aborts the
publish — there is no try/except around `_append_to_room_log`, so the
exception escapes the handler, nothing is broadcast, the room log is
unchanged, and the in-memory history has already been updated. -/
theorem c4_log_failure_aborts_publish (cap : Nat) (s : ServerState) (ws : Conn) (r m now : String)
    (closed : Conn → Bool) {u : String}
    (hr : r ≠ "") (hm : m ≠ "") (hu : s.ws_to_username ws = some u) (hu' : u ≠ "") :
    (handlePublish cap s ws (some r) (some m) now false closed).raised = true ∧
    (handlePublish cap s ws (some r) (some m) now false closed).outputs = [] ∧
    (handlePublish cap s ws (some r) (some m) now false closed).state.room_to_history r =
      dequeAppend cap ⟨r, u, m, now⟩ (s.room_to_history r) ∧
    (handlePublish cap s ws (some r) (some m) now false closed).state.room_log = s.room_log := by
  simp only [handlePublish, pyTruthy, hr, hm, hu]
  simp [hr, hm, hu', upd_self]

/-- Claim C4, refuted as stated: with a live subscriber in the room, a
publish whose log append fails raises out of the handler and delivers
nothing to that subscriber. -/
theorem c4_log_failure_blocks_broadcast :
    2 ∈ ((handleSubscribe 100 5 (handleLogin initState 1 (some "alice")).1 2
        (some "general")).1).room_to_subscribers "general" ∧
    (handlePublish 100
      (handleSubscribe 100 5 (handleLogin initState 1 (some "alice")).1 2 (some "general")).1
      1 (some "general") (some "hi") "T" false (fun _ => false)).raised = true ∧
    (handlePublish 100
      (handleSubscribe 100 5 (handleLogin initState 1 (some "alice")).1 2 (some "general")).1
      1 (some "general") (some "hi") "T" false (fun _ => false)).outputs = [] := by
  refine ⟨?_, ?_, ?_⟩ <;> decide

theorem takeLast_length {α : Type} (n : Nat) (l : List α) :
    (takeLast n l).length = min n l.length := by
  simp [takeLast]
  omega

theorem takeLast_of_le {α : Type} {n : Nat} {l : List α} (h : l.length ≤ n) :
    takeLast n l = l := by
  rw [takeLast, show l.length - n = 0 from by omega, List.drop_zero]

theorem takeLast_takeLast {α : Type} {n m : Nat} (h : n ≤ m) (l : List α) :
    takeLast n (takeLast m l) = takeLast n l := by
  simp only [takeLast, List.drop_drop, List.length_drop]
  congr 1
  omega

theorem dequeAppend_takeLast {α : Type} {cap : Nat} (h : 1 ≤ cap) (x : α) (l : List α) :
    dequeAppend cap x (takeLast cap l) = takeLast cap (l ++ [x]) := by
  by_cases hl : cap ≤ l.length
  · have hlen : (takeLast cap l).length = cap := by rw [takeLast_length]; omega
    rw [dequeAppend, if_neg (show ¬cap = 0 by omega),
      if_pos (show cap ≤ (takeLast cap l).length by omega)]
    simp only [takeLast, List.drop_drop, List.length_append, List.length_cons,
      List.length_nil]
    rw [List.drop_append_of_le_length (by omega)]
    congr 2
    omega
  · have hlen : (takeLast cap l).length = l.length := by rw [takeLast_length]; omega
    rw [dequeAppend, if_neg (show ¬cap = 0 by omega),
      if_neg (show ¬cap ≤ (takeLast cap l).length by omega)]
    rw [takeLast_of_le (show l.length ≤ cap from by omega),
      takeLast_of_le (show (l ++ [x]).length ≤ cap from by simp; omega)]

theorem foldl_dequeAppend_takeLast {α : Type} {cap : Nat} (h : 1 ≤ cap) :
    ∀ (xs l : List α),
      xs.foldl (fun d x => dequeAppend cap x d) (takeLast cap l) = takeLast cap (l ++ xs)
  | [], l => by simp
  | x :: xs, l => by
    simp only [List.foldl_cons]
    rw [dequeAppend_takeLast h x l, foldl_dequeAppend_takeLast h xs (l ++ [x])]
    simp

theorem foldl_dequeAppend_nil {α : Type} {cap : Nat} (h : 1 ≤ cap) (xs : List α) :
    xs.foldl (fun d x => dequeAppend cap x d) [] = takeLast cap xs := by
  have h0 : takeLast cap ([] : List α) = [] := by simp [takeLast]
  have := foldl_dequeAppend_takeLast h xs []
  rw [h0] at this
  simpa using this

theorem foldl_dequeAppend_of_le {α : Type} (cap : Nat) :
    ∀ (l acc : List α), acc.length + l.length ≤ cap →
      l.foldl (fun d x => dequeAppend cap x d) acc = acc ++ l
  | [], acc, _ => by simp
  | x :: l, acc, h => by
    have hstep : dequeAppend cap x acc = acc ++ [x] := by
      simp only [List.length_cons] at h
      rw [dequeAppend, if_neg (by omega), if_neg (by omega)]
    simp only [List.foldl_cons, hstep]
    rw [foldl_dequeAppend_of_le cap l (acc ++ [x]) (by simp only [List.length_append,
      List.length_cons, List.length_nil, List.length_cons] at h ⊢; omega)]
    simp

theorem dequeAppendLeft_length_le {α : Type} {cap : Nat} {l : List α}
    (h : l.length ≤ cap) (x : α) : (dequeAppendLeft cap x l).length ≤ cap := by
  rw [dequeAppendLeft]
  by_cases h0 : cap = 0
  · simp [h0]
  · rw [if_neg h0]
    by_cases hf : cap ≤ l.length
    · rw [if_pos hf]
      have : l ≠ [] := by intro he; subst he; simp at hf; omega
      simp [List.length_dropLast]
      omega
    · rw [if_neg hf]
      simp
      omega

theorem extractLines_length_le {cap : Nat} :
    ∀ (fuel : Nat) (buffer : List Char) (lines : List (List Char)),
      lines.length ≤ cap → (extractLines cap fuel buffer lines).1.length ≤ cap
  | 0, _, _, h => h
  | fuel + 1, buffer, lines, h => by
    rw [extractLines]
    cases hnl : rfindNL buffer with
    | none => exact h
    | some idx =>
      apply extractLines_length_le fuel
      split
      · exact dequeAppendLeft_length_le h _
      · exact h

theorem readLoop_length_le {cap : Nat} {file : List Char} :
    ∀ (fuel pointer : Nat) (buffer : List Char) (lines : List (List Char)),
      lines.length ≤ cap → (readLoop cap file fuel pointer buffer lines).length ≤ cap
  | 0, _, _, _, h => h
  | fuel + 1, pointer, buffer, lines, h => by
    rw [readLoop]
    split
    · dsimp only
      split
      · exact readLoop_length_le fuel _ _ _
          (dequeAppendLeft_length_le (extractLines_length_le _ _ _ h) _)
      · exact readLoop_length_le fuel _ _ _ (extractLines_length_le _ _ _ h)
    · exact h

theorem readLastRecords_length_le (room : String) (file : List Char) (count : Nat) :
    (readLastRecords room file count).length ≤ count :=
  le_trans (List.length_filterMap_le _ _)
    (readLoop_length_le _ _ _ _ (by simp))

/-- Claim C7: when the replay path finds the room's in-memory buffer
empty, it reseeds the buffer with the tail read of the persistent log at
count HISTORY_SIZE (the buffer capacity `cap`, not the requested replay
count) and only then slices the last `count` records for the
subscriber. -/
theorem c7_reseed_uses_history_size (cap count : Nat) (s : ServerState) (ws : Conn) (room : String)
    (h : s.room_to_history room = []) :
    (sendRecentHistory cap s ws room count).1.room_to_history room =
      readLastRecords room (s.room_log (sanitizeRoom room)) cap ∧
    (sendRecentHistory cap s ws room count).2 =
      (if pySliceLast count (readLastRecords room (s.room_log (sanitizeRoom room)) cap) ≠ []
       then [(ws, Envelope.history room
          (pySliceLast count (readLastRecords room (s.room_log (sanitizeRoom room)) cap)))]
       else []) := by
  have hlen : (s.room_to_history room).length = 0 := by rw [h]; rfl
  have hseed : (readLastRecords room (s.room_log (sanitizeRoom room)) cap).foldl
      (fun d rec => dequeAppend cap rec d) (s.room_to_history room) =
      readLastRecords room (s.room_log (sanitizeRoom room)) cap := by
    rw [h]
    have := foldl_dequeAppend_of_le cap
      (readLastRecords room (s.room_log (sanitizeRoom room)) cap) []
      (by simpa using readLastRecords_length_le room _ cap)
    simpa using this
  constructor
  · simp only [sendRecentHistory, hlen, if_pos, ite_true, hseed]
    exact upd_self _ _ _
  · simp only [sendRecentHistory, hlen, if_pos, ite_true, hseed]

theorem foldl_cleanup_no_closed {closed : Conn → Bool} (h : ∀ c, closed c = false) :
    ∀ (subs : List Conn) (s : ServerState),
      subs.foldl (fun t ws => if closed ws then cleanup t ws else t) s = s
  | [], s => rfl
  | w :: subs, s => by
    simp only [List.foldl_cons, h w, Bool.false_eq_true, ite_false]
    exact foldl_cleanup_no_closed h subs s

theorem broadcast_state_no_closed {s : ServerState} {closed : Conn → Bool}
    (h : ∀ c, closed c = false) (room : String) (rec : Rec) :
    (broadcast s closed room rec).1 = s := by
  rw [broadcast_state]
  exact foldl_cleanup_no_closed h _ s

theorem sendRecentHistory_nonempty {s : ServerState} {room : String}
    (h : (s.room_to_history room).length ≠ 0) (cap count : Nat) (ws : Conn) :
    sendRecentHistory cap s ws room count =
      (s, if pySliceLast count (s.room_to_history room) ≠ [] then
        [(ws, Envelope.history room (pySliceLast count (s.room_to_history room)))] else []) := by
  simp [sendRecentHistory, h]

theorem handlePublish_success {cap : Nat} {s : ServerState} {ws : Conn} {r m now u : String}
    {closed : Conn → Bool}
    (hr : r ≠ "") (hm : m ≠ "") (hu : s.ws_to_username ws = some u) (hu' : u ≠ "")
    (hclosed : ∀ c, closed c = false) :
    (handlePublish cap s ws (some r) (some m) now true closed).state =
      { s with
        room_to_history :=
          upd s.room_to_history r (dequeAppend cap ⟨r, u, m, now⟩ (s.room_to_history r))
        room_log :=
          upd s.room_log (sanitizeRoom r)
            (s.room_log (sanitizeRoom r) ++ logLine ⟨r, u, m, now⟩) } := by
  have h1 : pyTruthy (some r) = true := by simp [pyTruthy, hr]
  have h2 : pyTruthy (some m) = true := by simp [pyTruthy, hm]
  have h3 : pyTruthy (s.ws_to_username ws) = true := by rw [hu]; simp [pyTruthy, hu']
  simp only [handlePublish, h1, h2, h3, eq_self_iff_true, not_true, ite_false, hu,
    Option.getD_some]
  rw [if_neg (by simp [pyTruthy, hu'])]
  exact broadcast_state_no_closed hclosed _ _

theorem publish_foldl_fields (cap : Nat) (p : Conn) (room u : String)
    (hr : room ≠ "") (hu' : u ≠ "") :
    ∀ (pubs : List (String × String)) (s : ServerState),
      (∀ pr ∈ pubs, pr.1 ≠ "") → s.ws_to_username p = some u →
      (pubs.foldl (fun t pr =>
          (handlePublish cap t p (some room) (some pr.1) pr.2 true (fun _ => false)).state)
        s).ws_to_username = s.ws_to_username ∧
      (pubs.foldl (fun t pr =>
          (handlePublish cap t p (some room) (some pr.1) pr.2 true (fun _ => false)).state)
        s).room_to_history room =
        pubs.foldl (fun d pr => dequeAppend cap (⟨room, u, pr.1, pr.2⟩ : Rec) d)
          (s.room_to_history room)
  | [], s, _, _ => ⟨rfl, rfl⟩
  | pr :: pubs, s, hms, hu => by
    have hm : pr.1 ≠ "" := hms pr (List.mem_cons_self pr pubs)
    have hstep := @handlePublish_success cap s p room pr.1 pr.2 u (fun _ => false)
      hr hm hu hu' (fun _ => rfl)
    simp only [List.foldl_cons, hstep]
    have ih := publish_foldl_fields cap p room u hr hu' pubs
      { s with
        room_to_history :=
          upd s.room_to_history room
            (dequeAppend cap ⟨room, u, pr.1, pr.2⟩ (s.room_to_history room))
        room_log :=
          upd s.room_log (sanitizeRoom room)
            (s.room_log (sanitizeRoom room) ++ logLine ⟨room, u, pr.1, pr.2⟩) }
      (fun q hq => hms q (List.mem_cons_of_mem pr hq)) hu
    refine ⟨ih.1.trans rfl, ih.2.trans ?_⟩
    simp only [upd_self]

/-- Claim C6 (amended, for replay count K with 1 ≤ K ≤ HISTORY_SIZE):
after N > K publishes to a fresh room, a new subscriber's history
envelope contains exactly the last K published records, oldest first,
with username, message and timestamp identical to what was published,
and exactly K entries. -/
theorem c6_replay_last_k (cap K : Nat) (s : ServerState) (p newc : Conn) (u room : String)
    (pubs : List (String × String))
    (hK : 1 ≤ K) (hKcap : K ≤ cap) (hN : K < pubs.length)
    (hr : room ≠ "") (hu : s.ws_to_username p = some u) (hu' : u ≠ "")
    (hms : ∀ pr ∈ pubs, pr.1 ≠ "") (hfresh : s.room_to_history room = []) :
    (handleSubscribe cap K
        (pubs.foldl (fun t pr =>
          (handlePublish cap t p (some room) (some pr.1) pr.2 true (fun _ => false)).state) s)
        newc (some room)).2 =
      [(newc, Envelope.ok "subscribed" [("room", room)]),
       (newc, Envelope.history room
          (takeLast K (pubs.map (fun pr => (⟨room, u, pr.1, pr.2⟩ : Rec)))))] ∧
    (takeLast K (pubs.map (fun pr => (⟨room, u, pr.1, pr.2⟩ : Rec)))).length = K := by
  have hcap1 : 1 ≤ cap := le_trans hK hKcap
  have hhist : (pubs.foldl (fun t pr =>
        (handlePublish cap t p (some room) (some pr.1) pr.2 true (fun _ => false)).state)
      s).room_to_history room =
      takeLast cap (pubs.map (fun pr => (⟨room, u, pr.1, pr.2⟩ : Rec))) := by
    rw [(publish_foldl_fields cap p room u hr hu' pubs s hms hu).2, hfresh]
    rw [show (pubs.foldl (fun d pr => dequeAppend cap (⟨room, u, pr.1, pr.2⟩ : Rec) d)
          ([] : List Rec)) =
        ((pubs.map (fun pr => (⟨room, u, pr.1, pr.2⟩ : Rec))).foldl
          (fun d rec => dequeAppend cap rec d) []) from
      (List.foldl_map (fun pr => (⟨room, u, pr.1, pr.2⟩ : Rec))
        (fun d rec => dequeAppend cap rec d) pubs []).symm]
    exact foldl_dequeAppend_nil hcap1 _
  set t := pubs.foldl (fun t pr =>
      (handlePublish cap t p (some room) (some pr.1) pr.2 true (fun _ => false)).state) s with ht
  have hlenmaps : (pubs.map (fun pr => (⟨room, u, pr.1, pr.2⟩ : Rec))).length = pubs.length :=
    List.length_map _ _
  have hlen : (takeLast cap (pubs.map (fun pr => (⟨room, u, pr.1, pr.2⟩ : Rec)))).length ≠ 0 := by
    rw [takeLast_length, hlenmaps]
    omega
  have hslice : pySliceLast K (takeLast cap (pubs.map (fun pr => (⟨room, u, pr.1, pr.2⟩ : Rec)))) =
      takeLast K (pubs.map (fun pr => (⟨room, u, pr.1, pr.2⟩ : Rec))) := by
    rw [pySliceLast, if_neg (by omega), takeLast_takeLast hKcap]
  have hKlen : (takeLast K (pubs.map (fun pr => (⟨room, u, pr.1, pr.2⟩ : Rec)))).length = K := by
    rw [takeLast_length, hlenmaps]
    omega
  refine ⟨?_, hKlen⟩
  have hv : pyTruthy (some room) = true := by simp [pyTruthy, hr]
  simp only [handleSubscribe, hv, not_true, ite_false]
  simp only [Option.getD_some]
  have hs1 : ({ t with
      room_to_subscribers :=
        upd t.room_to_subscribers room (setAdd newc (t.room_to_subscribers room))
      ws_to_rooms :=
        upd t.ws_to_rooms newc (setAdd room (t.ws_to_rooms newc)) } :
      ServerState).room_to_history room =
      takeLast cap (pubs.map (fun pr => (⟨room, u, pr.1, pr.2⟩ : Rec))) := hhist
  rw [sendRecentHistory_nonempty (by rw [hs1]; exact hlen) cap K newc]
  rw [hhist, hslice]
  rw [if_pos (show takeLast K (pubs.map (fun pr => (⟨room, u, pr.1, pr.2⟩ : Rec))) ≠ [] from
    fun he => by rw [he] at hKlen; simp at hKlen; omega)]

/-- Claim C6, refuted as stated for replay count K = 0: after one publish
(so N = 1 > K) the new subscriber's history envelope carries that record —
Python's `[-0:]` slice returns the whole buffer — so the message list
exceeds K entries. -/
theorem c6_zero_replay_count_sends_all :
    (handleSubscribe 100 0
      (handlePublish 100 (handleLogin initState 1 (some "u")).1 1 (some "r") (some "m") "T"
        true (fun _ => false)).state
      2 (some "r")).2 =
      [(2, Envelope.ok "subscribed" [("room", "r")]),
       (2, Envelope.history "r" [⟨"r", "u", "m", "T"⟩])] ∧
    ([(⟨"r", "u", "m", "T"⟩ : Rec)] : List Rec) ≠ [] := by
  decide

theorem splitOncePipe_of_not_mem : ∀ {l : List Char}, '|' ∉ l → splitOncePipe l = none
  | [], _ => rfl
  | c :: cs, h => by
    have hc : ¬c = '|' := fun he => h (he ▸ List.mem_cons_self c cs)
    rw [splitOncePipe, if_neg hc, splitOncePipe_of_not_mem (fun hm => h (List.mem_cons_of_mem c hm))]

theorem splitOncePipe_append : ∀ {a : List Char}, '|' ∉ a → ∀ (b : List Char),
    splitOncePipe (a ++ '|' :: b) = some (a, b)
  | [], _, b => by rw [List.nil_append, splitOncePipe, if_pos rfl]
  | c :: cs, h, b => by
    have hc : ¬c = '|' := fun he => h (he ▸ List.mem_cons_self c cs)
    rw [List.cons_append, splitOncePipe, if_neg hc,
      splitOncePipe_append (fun hm => h (List.mem_cons_of_mem c hm)) b]

theorem dropWhile_nl_of_not_mem : ∀ {l : List Char}, '\n' ∉ l → l.dropWhile (· = '\n') = l
  | [], _ => rfl
  | c :: cs, h => by
    have hc : ¬c = '\n' := fun he => h (he ▸ List.mem_cons_self c cs)
    simp [List.dropWhile, hc]

theorem rstripNL_append {l : List Char} (h : '\n' ∉ l) : rstripNL (l ++ ['\n']) = l := by
  rw [rstripNL, List.reverse_append]
  show (('\n' :: l.reverse).dropWhile (· = '\n')).reverse = l
  rw [List.dropWhile_cons_of_pos (by simp),
    dropWhile_nl_of_not_mem (by simpa using h), List.reverse_reverse]

/-- Claim C8 (amended): a field delimiter inside the message alone is
preserved verbatim on replay (the maxsplit-2 split keeps the remainder
intact), while a delimiter inside the username shifts the field
boundaries — the parsed username is the text before the first pipe and
the rest of the username is prepended to the message — and in both cases
the line parses into three fields and is kept, never dropped. -/
theorem c8_delimiter_shifts_fields (room ts u m : String)
    (hts : '|' ∉ ts.toList) (hnts : '\n' ∉ ts.toList)
    (hnu : '\n' ∉ u.toList) (hnm : '\n' ∉ m.toList) :
    ('|' ∉ u.toList →
      parseLine room (logLine ⟨room, u, m, ts⟩) = some ⟨room, u, m, ts⟩) ∧
    (∀ u1 u2 : List Char, u.toList = u1 ++ '|' :: u2 → '|' ∉ u1 →
      parseLine room (logLine ⟨room, u, m, ts⟩) =
        some ⟨room, u1.asString, (u2 ++ '|' :: m.toList).asString, ts⟩) := by
  have hbody : logLine ⟨room, u, m, ts⟩ =
      (ts.toList ++ '|' :: (u.toList ++ '|' :: m.toList)) ++ ['\n'] := by
    simp [logLine]
  have hnbody : '\n' ∉ ts.toList ++ '|' :: (u.toList ++ '|' :: m.toList) := by
    intro hm
    rcases List.mem_append.1 hm with h | h
    · exact hnts h
    · rcases List.mem_cons.1 h with h | h
      · exact absurd h (by decide)
      · rcases List.mem_append.1 h with h | h
        · exact hnu h
        · rcases List.mem_cons.1 h with h | h
          · exact absurd h (by decide)
          · exact hnm h
  have hstrip : rstripNL (logLine ⟨room, u, m, ts⟩) =
      ts.toList ++ '|' :: (u.toList ++ '|' :: m.toList) := by
    rw [hbody, rstripNL_append hnbody]
  have hne : ts.toList ++ '|' :: (u.toList ++ '|' :: m.toList) ≠ [] := by simp
  have hsplit1 : splitOncePipe (ts.toList ++ '|' :: (u.toList ++ '|' :: m.toList)) =
      some (ts.toList, u.toList ++ '|' :: m.toList) := splitOncePipe_append hts _
  constructor
  · intro hpu
    have hsplit2 : splitOncePipe (u.toList ++ '|' :: m.toList) =
        some (u.toList, m.toList) := splitOncePipe_append hpu _
    rw [parseLine]
    simp only [hstrip, hne, ite_false, if_neg, pySplit2Pipe, hsplit1, hsplit2,
      String.asString_toList]
  · intro u1 u2 hu12 hpu1
    have hassoc : u.toList ++ '|' :: m.toList = u1 ++ '|' :: (u2 ++ '|' :: m.toList) := by
      rw [hu12]
      simp
    have hsplit2 : splitOncePipe (u.toList ++ '|' :: m.toList) =
        some (u1, u2 ++ '|' :: m.toList) := by
      rw [hassoc]
      exact splitOncePipe_append hpu1 _
    rw [parseLine]
    simp only [hstrip, hne, ite_false, if_neg, pySplit2Pipe, hsplit1, hsplit2,
      String.asString_toList]

/-- Claim C9: a publish carrying a valid non-empty room and message from
a connection with no identity yields exactly the `not_logged_in` error
envelope and returns the state unchanged — history buffer and persistent
log included — with nothing broadcast and no exception raised. -/
theorem c9_publish_without_login_rejected (cap : Nat) (s : ServerState) (ws : Conn) (r m now : String)
    (logOk : Bool) (closed : Conn → Bool)
    (hr : r ≠ "") (hm : m ≠ "") (hu : s.ws_to_username ws = none) :
    handlePublish cap s ws (some r) (some m) now logOk closed =
      ⟨s, [(ws, Envelope.error "not_logged_in" "Login required before publishing")], false⟩ := by
  simp [handlePublish, pyTruthy, hr, hm, hu]

theorem c9_publish_without_login_rejected_witness :
    ("r" : String) ≠ "" ∧ ("m" : String) ≠ "" ∧ initState.ws_to_username 7 = none ∧
    handlePublish 100 initState 7 (some "r") (some "m") "T" true (fun _ => false) =
      ⟨initState, [(7, Envelope.error "not_logged_in" "Login required before publishing")],
       false⟩ :=
  ⟨by decide, by decide, rfl,
   c9_publish_without_login_rejected 100 initState 7 "r" "m" "T" true (fun _ => false) (by decide) (by decide) rfl⟩

theorem c3_username_taken_iff_bound_witness :
    ("alice" : String) ≠ "" ∧
    (((handleLogin initState 1 (some "alice")).1.username_to_ws "alice").isSome = true) ∧
    (handleLogin (handleLogin initState 1 (some "alice")).1 2 (some "alice")).2 =
      [(2, Envelope.error "username_taken" "Username already in use"),
       (2, Envelope.close 4000 "username_taken")] ∧
    (handleLogin (handleLogin initState 1 (some "alice")).1 2 (some "alice")).1 =
      (handleLogin initState 1 (some "alice")).1 :=
  ⟨by decide, by decide,
   (c3_username_taken_iff_bound (handleLogin initState 1 (some "alice")).1 2 "alice" (by decide)).1.mpr
     (by decide),
   (c3_username_taken_iff_bound (handleLogin initState 1 (some "alice")).1 2 "alice" (by decide)).2
     (by decide)⟩

theorem c4_log_failure_aborts_publish_witness :
    ("g" : String) ≠ "" ∧ ("hi" : String) ≠ "" ∧
    (handleLogin initState 1 (some "alice")).1.ws_to_username 1 = some "alice" ∧
    ("alice" : String) ≠ "" ∧
    (handlePublish 100 (handleLogin initState 1 (some "alice")).1 1 (some "g") (some "hi") "T"
      false (fun _ => false)).raised = true ∧
    (handlePublish 100 (handleLogin initState 1 (some "alice")).1 1 (some "g") (some "hi") "T"
      false (fun _ => false)).outputs = [] :=
  ⟨by decide, by decide, by decide, by decide,
   (@c4_log_failure_aborts_publish 100 (handleLogin initState 1 (some "alice")).1 1 "g" "hi" "T"
     (fun _ => false) "alice" (by decide) (by decide) (by decide) (by decide)).1,
   (@c4_log_failure_aborts_publish 100 (handleLogin initState 1 (some "alice")).1 1 "g" "hi" "T"
     (fun _ => false) "alice" (by decide) (by decide) (by decide) (by decide)).2.1⟩

theorem c5_broadcast_partial_failure_isolated_witness :
    1 ∈ ((handleSubscribe 100 5 (handleSubscribe 100 5 initState 1 (some "g")).1 2
        (some "g")).1).room_to_subscribers "g" ∧
    2 ∈ ((handleSubscribe 100 5 (handleSubscribe 100 5 initState 1 (some "g")).1 2
        (some "g")).1).room_to_subscribers "g" ∧
    (fun c => decide (c = 2)) 1 = false ∧ (fun c => decide (c = 2)) 2 = true ∧
    (1, Envelope.message ⟨"g", "u", "m", "T"⟩) ∈
      (broadcast ((handleSubscribe 100 5 (handleSubscribe 100 5 initState 1 (some "g")).1 2
          (some "g")).1) (fun c => decide (c = 2)) "g" ⟨"g", "u", "m", "T"⟩).2 ∧
    (broadcast ((handleSubscribe 100 5 (handleSubscribe 100 5 initState 1 (some "g")).1 2
        (some "g")).1) (fun c => decide (c = 2)) "g" ⟨"g", "u", "m", "T"⟩).1.ws_to_rooms 2 =
      [] :=
  ⟨by decide, by decide, by decide, by decide,
   (c5_broadcast_partial_failure_isolated _ (fun c => decide (c = 2)) "g" ⟨"g", "u", "m", "T"⟩ 1 2 (by decide) (by decide)
     (by decide) (by decide)).1,
   (c5_broadcast_partial_failure_isolated _ (fun c => decide (c = 2)) "g" ⟨"g", "u", "m", "T"⟩ 1 2 (by decide) (by decide)
     (by decide) (by decide)).2.2.1⟩

theorem c10_subscribe_without_login_succeeds_witness :
    initState.ws_to_username 4 = none ∧ ("g" : String) ≠ "" ∧
    4 ∈ (handleSubscribe 100 5 initState 4 (some "g")).1.room_to_subscribers "g" ∧
    "g" ∈ (handleSubscribe 100 5 initState 4 (some "g")).1.ws_to_rooms 4 ∧
    (handleSubscribe 100 5 initState 4 (some "g")).2.head? =
      some (4, Envelope.ok "subscribed" [("room", "g")]) ∧
    (4, Envelope.message ⟨"g", "u", "m", "T"⟩) ∈
      (broadcast (handleSubscribe 100 5 initState 4 (some "g")).1 (fun _ => false) "g"
        ⟨"g", "u", "m", "T"⟩).2 :=
  ⟨rfl, by decide,
   (c10_subscribe_without_login_succeeds 100 5 initState 4 "g" rfl (by decide)).1,
   (c10_subscribe_without_login_succeeds 100 5 initState 4 "g" rfl (by decide)).2.1,
   (c10_subscribe_without_login_succeeds 100 5 initState 4 "g" rfl (by decide)).2.2.1,
   (c10_subscribe_without_login_succeeds 100 5 initState 4 "g" rfl (by decide)).2.2.2.2 ⟨"g", "u", "m", "T"⟩
     (fun _ => false) rfl⟩

theorem c7_reseed_uses_history_size_witness :
    initState.room_to_history "g" = [] ∧
    (sendRecentHistory 100 initState 3 "g" 5).1.room_to_history "g" =
      readLastRecords "g" (initState.room_log (sanitizeRoom "g")) 100 ∧
    (sendRecentHistory 100 initState 3 "g" 5).2 =
      (if pySliceLast 5 (readLastRecords "g" (initState.room_log (sanitizeRoom "g")) 100) ≠ []
       then [(3, Envelope.history "g"
          (pySliceLast 5 (readLastRecords "g" (initState.room_log (sanitizeRoom "g")) 100)))]
       else []) :=
  ⟨rfl,
   (c7_reseed_uses_history_size 100 5 initState 3 "g" rfl).1,
   (c7_reseed_uses_history_size 100 5 initState 3 "g" rfl).2⟩

theorem c8_delimiter_shifts_fields_witness :
    '|' ∉ ("T" : String).toList ∧ '\n' ∉ ("T" : String).toList ∧
    '\n' ∉ ("alice" : String).toList ∧ '\n' ∉ ("hi|x" : String).toList ∧
    '|' ∉ ("alice" : String).toList ∧
    parseLine "g" (logLine ⟨"g", "alice", "hi|x", "T"⟩) =
      some ⟨"g", "alice", "hi|x", "T"⟩ :=
  ⟨by decide, by decide, by decide, by decide, by decide,
   (c8_delimiter_shifts_fields "g" "T" "alice" "hi|x" (by decide) (by decide) (by decide)
     (by decide)).1 (by decide)⟩

theorem c6_replay_last_k_witness :
    (1 : Nat) ≤ 1 ∧ (1 : Nat) ≤ 100 ∧
    1 < ([(("a" : String), ("T1" : String)), ("b", "T2")] : List (String × String)).length ∧
    ("g" : String) ≠ "" ∧
    (handleLogin initState 1 (some "alice")).1.ws_to_username 1 = some "alice" ∧
    ("alice" : String) ≠ "" ∧
    (∀ pr ∈ ([(("a" : String), ("T1" : String)), ("b", "T2")] : List (String × String)),
      pr.1 ≠ "") ∧
    (handleLogin initState 1 (some "alice")).1.room_to_history "g" = [] ∧
    (handleSubscribe 100 1
        (([(("a" : String), ("T1" : String)), ("b", "T2")] :
            List (String × String)).foldl (fun t pr =>
          (handlePublish 100 t 1 (some "g") (some pr.1) pr.2 true (fun _ => false)).state)
          (handleLogin initState 1 (some "alice")).1)
        2 (some "g")).2 =
      [(2, Envelope.ok "subscribed" [("room", "g")]),
       (2, Envelope.history "g"
          (takeLast 1 (([(("a" : String), ("T1" : String)), ("b", "T2")] :
              List (String × String)).map
            (fun pr => (⟨"g", "alice", pr.1, pr.2⟩ : Rec)))))] ∧
    (takeLast 1 (([(("a" : String), ("T1" : String)), ("b", "T2")] :
        List (String × String)).map
      (fun pr => (⟨"g", "alice", pr.1, pr.2⟩ : Rec)))).length = 1 :=
  ⟨by decide, by decide, by decide, by decide, by decide, by decide, by decide, by decide,
   (c6_replay_last_k 100 1 (handleLogin initState 1 (some "alice")).1 1 2 "alice" "g"
     [("a", "T1"), ("b", "T2")] (by decide) (by decide) (by decide) (by decide) (by decide)
     (by decide) (by decide) (by decide)).1,
   (c6_replay_last_k 100 1 (handleLogin initState 1 (some "alice")).1 1 2 "alice" "g"
     [("a", "T1"), ("b", "T2")] (by decide) (by decide) (by decide) (by decide) (by decide)
     (by decide) (by decide) (by decide)).2⟩

/-- Claim C1 (code bug): the chunked backward tail read is supposed to
return the last K records, matching a forward read that takes the last K
lines.  On a three-line log with K = 2 it returns the records of the
FIRST two lines instead: the inner extraction loop does not stop once
`count` lines are collected and `deque(maxlen=count).appendleft` then
evicts the newest lines, contradicting the code's own stated purpose of
efficiently reading the last N lines. -/
theorem c1_tail_read_first_not_last :
    readLastRecords "r" "1|u|a\n2|u|b\n3|u|c\n".toList 2 =
      [⟨"r", "u", "a", "1"⟩, ⟨"r", "u", "b", "2"⟩] ∧
    forwardLastRecords "r" "1|u|a\n2|u|b\n3|u|c\n".toList 2 =
      [⟨"r", "u", "b", "2"⟩, ⟨"r", "u", "c", "3"⟩] ∧
    readLastRecords "r" "1|u|a\n2|u|b\n3|u|c\n".toList 2 ≠
      forwardLastRecords "r" "1|u|a\n2|u|b\n3|u|c\n".toList 2 :=
  ⟨by decide, by decide, by decide⟩

/-- Claim C3, refuted as stated: with "alice" bound to connection 1
itself, a second login of connection 1 under its own name still yields
`username_taken` and a forced close, even though the name is not bound to
a *different* live connection. -/
theorem c3_username_taken_without_other_connection :
    (handleLogin initState 1 (some "alice")).1.username_to_ws "alice" = some 1 ∧
    (handleLogin initState 1 (some "alice")).1.ws_to_username 1 = some "alice" ∧
    (handleLogin (handleLogin initState 1 (some "alice")).1 1 (some "alice")).2 =
      [(1, Envelope.error "username_taken" "Username already in use"),
       (1, Envelope.close 4000 "username_taken")] :=
  ⟨by decide, by decide, by decide⟩

/-- Claim C8, refuted as stated: a field delimiter in the username or in
the message does not make the three-field split fail — `split("|", 2)`
still yields three fields — so the line is parsed and returned, not
silently dropped; a username pipe shifts the fields instead. -/
theorem c8_delimiter_line_not_dropped :
    parseLine "r" (logLine ⟨"r", "a|b", "m", "T"⟩) = some ⟨"r", "a", "b|m", "T"⟩ ∧
    parseLine "r" (logLine ⟨"r", "u", "x|y", "T"⟩) = some ⟨"r", "u", "x|y", "T"⟩ :=
  ⟨by decide, by decide⟩

end Chat
